import Mathlib

/-!
Verification of the sapience-bot source (`src/index.ts`), a one-shot trading
bot: it selects the next-closing public prediction market, asks a language
model for a Yes/No prediction, fetches a position-size quote, and (when a
signing key is configured) submits an on-chain trade.

The embedding below is shallow: JS `bigint` values are `Nat` (all values at
issue are non-negative), nullable GraphQL/JSON fields are `Option`, thrown
`Error`s are `Except.error` carrying the message, and the network responses
that the code consumes (GraphQL body, LLM message content, quoter HTTP
response) are explicit parameters.
-/

namespace SapienceBot

/-- JS string `trim`/`toLowerCase`/`includes` are modelled on the character
list of the string.  `jsWhitespace` covers the ASCII whitespace that can
occur in the strings at issue (JS also trims other Unicode space). -/
def jsWhitespace (c : Char) : Bool :=
  c == ' ' || c == '\t' || c == '\n' || c == '\r'

/-- JS `String.prototype.trim`: drop whitespace from both ends. -/
def jsTrim (s : String) : String :=
  String.mk (((s.data.dropWhile jsWhitespace).reverse.dropWhile jsWhitespace).reverse)

/-- JS `String.prototype.toLowerCase` (character-wise; agrees with JS on the
ASCII letters and punctuation appearing in the strings at issue). -/
def jsToLowerCase (s : String) : String :=
  String.mk (s.data.map Char.toLower)

/-- JS `hay.includes(needle)`: substring containment. -/
def includesSub (hay needle : String) : Bool :=
  decide (needle.data <:+: hay.data)

/-- viem `parseEther('1')`: one full 18-decimal unit. -/
def parseEtherOne : Nat := 10 ^ 18

/-- `WAGER_AMOUNT = parseEther('1')` (index.ts line 12). -/
def WAGER_AMOUNT : Nat := parseEtherOne

/-- `base.id`: the Base chain id used in the GraphQL and quoter calls. -/
def baseChainId : Nat := 8453

/-- A market row of the GraphQL response (fields used by the code).
`endTimestamp` is a nullable numeric string in the schema; we embed it
already parsed, `none` standing for `null`/`undefined`. -/
structure Market where
  marketId : Nat
  question : Option String
  endTimestamp : Option Nat
  public : Option Bool
deriving Repr, DecidableEq

/-- A market-group row of the GraphQL response: its address and its
(nullable) list of markets. -/
structure MarketGroup where
  address : String
  markets : Option (List Market)
deriving Repr, DecidableEq

/-- A market enriched with its group's address, as built by the spread
`\x7b ...market, marketGroup: \x7b address: group.address \x7d \x7d` in the
`flatMap` of `fetchNextClosingMarket` (index.ts lines 48-53). -/
structure EnrichedMarket where
  marketId : Nat
  question : Option String
  endTimestamp : Option Nat
  public : Option Bool
  marketGroupAddress : String
deriving Repr, DecidableEq

/-- The `flatMap` step of `fetchNextClosingMarket`: every group contributes
its markets (`\x7c\x7c []` for a null list), each tagged with the group address. -/
def flattenMarkets (marketGroups : List MarketGroup) : List EnrichedMarket :=
  marketGroups.flatMap fun group =>
    (group.markets.getD []).map fun market =>
      { marketId := market.marketId
        question := market.question
        endTimestamp := market.endTimestamp
        public := market.public
        marketGroupAddress := group.address }

/-- The filter predicate `market.public === true` (index.ts line 54). -/
def isPublic (market : EnrichedMarket) : Bool :=
  market.public == some true

/-- `market.endTimestamp ? parseInt(market.endTimestamp.toString()) : Infinity`
(index.ts lines 58-59): a missing timestamp compares as `Infinity`, i.e. `⊤`. -/
def timeVal (market : EnrichedMarket) : WithTop Nat :=
  match market.endTimestamp with
  | some t => (t : WithTop Nat)
  | none => ⊤

/-- The body of the `reduce` of `fetchNextClosingMarket` (index.ts lines
55-62): keep the incumbent unless the new market ends strictly earlier. -/
def nextClosingReduce (earliest : Option EnrichedMarket) (market : EnrichedMarket) :
    Option EnrichedMarket :=
  match earliest with
  | none => some market
  | some e => if timeVal market < timeVal e then some market else some e

/-- The flattened, `public === true`-filtered market list that the `reduce`
scans. -/
def publicMarkets (marketGroups : List MarketGroup) : List EnrichedMarket :=
  (flattenMarkets marketGroups).filter isPublic

/-- The non-null step of `nextClosingReduce`, as a total function: keep the
incumbent `e` unless `market` ends strictly earlier. -/
def pickEarlier (e market : EnrichedMarket) : EnrichedMarket :=
  if timeVal market < timeVal e then market else e

/-- The running minimum of the reduce once seeded with a first market. -/
def minScan (e : EnrichedMarket) (l : List EnrichedMarket) : EnrichedMarket :=
  l.foldl pickEarlier e

/-- `fetchNextClosingMarket` (index.ts lines 47-68), as a function of the
GraphQL response body: flatten the groups, keep public markets, reduce to
the earliest-ending one, and throw `No active markets found.` when the
reduce yields `null`. -/
def fetchNextClosingMarket (marketGroups : List MarketGroup) :
    Except String EnrichedMarket :=
  match (publicMarkets marketGroups).foldl nextClosingReduce none with
  | none => Except.error "No active markets found."
  | some m => Except.ok m

/-- `getPrediction` (index.ts lines 72-119) as a function of the configured
`OPENAI_API_KEY` and of the LLM message content (`none` when
`res.choices[0].message.content` is not a string).  Without a key the call
is skipped and the full unit is returned; otherwise the trimmed, lower-cased
content is scanned for the substrings `yes` then `no`. -/
def getPrediction (openaiApiKey : Option String) (llmContent : Option String) :
    Except String Nat :=
  match openaiApiKey with
  | none => Except.ok parseEtherOne
  | some _ =>
    match llmContent with
    | none => Except.error "Failed to get a valid response from OpenAI API."
    | some content =>
      let answer := jsToLowerCase (jsTrim content)
      if includesSub answer "yes" then Except.ok parseEtherOne
      else if includesSub answer "no" then Except.ok 0
      else Except.error "Couldn\x27t parse a prediction"

/-- viem `formatUnits` (viem `src/utils/unit/formatUnits.ts`) restricted to
the non-negative values that occur here: pad the decimal digits of `value`
to `decimals` characters, split integer/fraction, strip the fraction's
trailing zeros, and join with a dot only when a fraction remains. -/
def formatUnits (value : Nat) (decimals : Nat) : String :=
  let display := List.replicate (decimals - (toString value).data.length) '0' ++
    (toString value).data
  let integer : List Char := display.take (display.length - decimals)
  let fraction : List Char := ((display.drop (display.length - decimals)).reverse.dropWhile
    (· == '0')).reverse
  String.mk ((if integer.isEmpty then ['0'] else integer) ++
    (if fraction.isEmpty then [] else '.' :: fraction))

/-- viem `formatEther value = formatUnits value 18`. -/
def formatEther (value : Nat) : String :=
  formatUnits value 18

/-- The expected-price string of `getQuote` (index.ts lines 123-128): the
near-zero sentinel `0.0000009` for a zero prediction, otherwise
`formatEther prediction`. -/
def expectedPriceDecimalString (prediction : Nat) : String :=
  if prediction = 0 then "0.0000009" else formatEther prediction

/-- The quoter URL built in `getQuote` (index.ts line 130). -/
def quoterUrl (marketAddress : String) (marketId : Nat) (prediction : Nat) : String :=
  "https://api.sapience.xyz/quoter/" ++ toString baseChainId ++ "/" ++ marketAddress ++
    "/" ++ toString marketId ++ "?collateralAvailable=" ++ toString WAGER_AMOUNT ++
    "&expectedPrice=" ++ expectedPriceDecimalString prediction

/-- Decimal value of a digit list, most significant first. -/
def decimalValue (l : List Char) : Nat :=
  l.foldl (fun acc c => 10 * acc + (c.toNat - 48)) 0

/-- JS `BigInt(s)` on a string: trims the string and converts a (possibly
empty) run of decimal digits, throwing (`none`) otherwise.  The sign and
radix-prefix forms of `BigInt` cannot occur for the unsigned magnitudes at
issue and are not modelled. -/
def jsBigIntOfString (s : String) : Option Nat :=
  let t := jsTrim s
  if t.data.all Char.isDigit then some (decimalValue t.data) else none

/-- The quoter's HTTP response as the code consumes it: `ok`/`status`, the
error body text read when not ok, and the `maxSize` JSON field read when ok. -/
structure QuoterResponse where
  ok : Bool
  status : Nat
  body : String
  maxSize : String
deriving Repr, DecidableEq

/-- `getQuote` (index.ts lines 122-144) as a function of its arguments and
of the quoter response fetched from `quoterUrl`: non-ok responses throw a
descriptive error, otherwise `BigInt(quote.maxSize)` is the position size. -/
def getQuote (marketAddress : String) (marketId prediction : Nat)
    (response : QuoterResponse) : Except String Nat :=
  let _fetchedUrl := quoterUrl marketAddress marketId prediction
  if !response.ok then
    Except.error ("Quoter API request failed with status " ++ toString response.status ++
      ": " ++ response.body)
  else
    match jsBigIntOfString response.maxSize with
    | some n => Except.ok n
    | none => Except.error "Cannot convert maxSize to a BigInt"

/-- Observable effects of the trading tail of the program: console output
and on-chain operations (`writeContract`/`waitForTransactionReceipt`).
`console.group`/`groupEnd` and empty `console.log()` spacer lines are not
distinguished from plain logs. -/
inductive Action where
  | consoleLog (line : String)
  | onChainTx (description : String)
deriving Repr, DecidableEq

/-- `trade` (index.ts lines 147-190) as the trace of effects of a completed
run: it throws before any effect when `ETHEREUM_PRIVATE_KEY` is unset, and
otherwise approves the wager amount and creates the trader position with a
deadline one hour past `now`, each awaited for a receipt. -/
def trade (privateKey : Option String) (marketAddress : String)
    (marketId positionSize now : Nat) : Except String (List Action) :=
  match privateKey with
  | none => Except.error "Ethereum private key is not set in environment variables."
  | some _ =>
    Except.ok
      [Action.consoleLog "Approving token spend...",
       Action.onChainTx ("approve " ++ marketAddress ++ " " ++ toString WAGER_AMOUNT),
       Action.onChainTx "waitForTransactionReceipt",
       Action.consoleLog "Creating trader position...",
       Action.onChainTx ("createTraderPosition " ++ toString marketId ++ " " ++
         toString positionSize ++ " " ++ toString WAGER_AMOUNT ++ " " ++
         toString (now + 60 * 60)),
       Action.onChainTx "waitForTransactionReceipt",
       Action.consoleLog "Success!"]

/-- The branch of `main` after the quote (index.ts lines 211-221): with a
key configured it announces and performs `trade`; without one it prints the
computed trade size and a hint, performing nothing on-chain. -/
def mainTradeBranch (privateKey : Option String) (marketAddress : String)
    (marketId positionSize now : Nat) : Except String (List Action) :=
  match privateKey with
  | some pk =>
    match trade (some pk) marketAddress marketId positionSize now with
    | Except.ok acts =>
      Except.ok (Action.consoleLog ("Submitting trade with a size of " ++
        formatEther positionSize ++ "...") :: acts)
    | Except.error e => Except.error e
  | none =>
    Except.ok
      [Action.consoleLog ("Trade Size: " ++ formatEther positionSize),
       Action.consoleLog "Add an Ethereum private key to your .env file to submit trades."]

/-! Concrete sample inputs, used by the witness theorems. -/

/-- Spec example: market ending at t=100, not public. -/
def marketPrivate100 : Market :=
  { marketId := 1, question := some "Q1?", endTimestamp := some 100, public := some false }

/-- Spec example: public market ending at t=200. -/
def marketPublic200 : Market :=
  { marketId := 2, question := some "Q2?", endTimestamp := some 200, public := some true }

/-- Spec example: public market ending at t=150, the expected pick. -/
def marketPublic150 : Market :=
  { marketId := 3, question := some "Q3?", endTimestamp := some 150, public := some true }

/-- Spec example response: one group holding the three markets above. -/
def mixedVisibilityGroups : List MarketGroup :=
  [{ address := "0xMG", markets := some [marketPrivate100, marketPublic200, marketPublic150] }]

/-- The t=150 market as enriched by the flatten step. -/
def enrichedPublic150 : EnrichedMarket :=
  { marketId := 3, question := some "Q3?", endTimestamp := some 150, public := some true,
    marketGroupAddress := "0xMG" }

/-- A response whose only markets are private. -/
def allPrivateGroups : List MarketGroup :=
  [{ address := "0xPG", markets := some [marketPrivate100,
      { marketId := 4, question := some "Q4?", endTimestamp := some 90, public := none }] }]

/-- A response whose public markets all lack an end timestamp. -/
def timestamplessGroups : List MarketGroup :=
  [{ address := "0xTG", markets := some
      [{ marketId := 7, question := some "Q7?", endTimestamp := none, public := some true },
       { marketId := 8, question := some "Q8?", endTimestamp := none, public := some true }] }]

/-- The first timestampless public market, enriched. -/
def enrichedTimestampless7 : EnrichedMarket :=
  { marketId := 7, question := some "Q7?", endTimestamp := none, public := some true,
    marketGroupAddress := "0xTG" }

/-! Lemmas about the minimum-selection scan. -/

lemma pickEarlier_cases (e x : EnrichedMarket) :
    pickEarlier e x = x ∨ pickEarlier e x = e := by
  unfold pickEarlier; split
  · exact Or.inl rfl
  · exact Or.inr rfl

lemma pickEarlier_le_left (e x : EnrichedMarket) :
    timeVal (pickEarlier e x) ≤ timeVal e := by
  unfold pickEarlier; split
  · exact le_of_lt (by assumption)
  · exact le_refl _

lemma pickEarlier_le_right (e x : EnrichedMarket) :
    timeVal (pickEarlier e x) ≤ timeVal x := by
  unfold pickEarlier; split
  · exact le_refl _
  · exact le_of_not_lt (by assumption)

lemma minScan_cons (e x : EnrichedMarket) (xs : List EnrichedMarket) :
    minScan e (x :: xs) = minScan (pickEarlier e x) xs := rfl

lemma foldl_nextClosingReduce_some (l : List EnrichedMarket) (e : EnrichedMarket) :
    l.foldl nextClosingReduce (some e) = some (minScan e l) := by
  induction l generalizing e with
  | nil => rfl
  | cons x xs ih =>
    show xs.foldl nextClosingReduce (nextClosingReduce (some e) x) = _
    have h : nextClosingReduce (some e) x = some (pickEarlier e x) := by
      show (if timeVal x < timeVal e then some x else some e) = some (pickEarlier e x)
      unfold pickEarlier
      split <;> rfl
    rw [h]
    exact ih (pickEarlier e x)

lemma minScan_eq_or_mem (e : EnrichedMarket) (l : List EnrichedMarket) :
    minScan e l = e ∨ minScan e l ∈ l := by
  induction l generalizing e with
  | nil => exact Or.inl rfl
  | cons x xs ih =>
    rcases ih (pickEarlier e x) with h | h
    · rcases pickEarlier_cases e x with hp | hp
      · right
        show minScan (pickEarlier e x) xs ∈ x :: xs
        rw [h, hp]
        exact List.mem_cons_self x xs
      · left
        show minScan (pickEarlier e x) xs = e
        rw [h, hp]
    · right
      show minScan (pickEarlier e x) xs ∈ x :: xs
      exact List.mem_cons_of_mem x h

lemma minScan_le (e : EnrichedMarket) (l : List EnrichedMarket) :
    timeVal (minScan e l) ≤ timeVal e ∧ ∀ x ∈ l, timeVal (minScan e l) ≤ timeVal x := by
  induction l generalizing e with
  | nil =>
    refine ⟨le_refl _, ?_⟩
    intro x hx
    exact absurd hx (List.not_mem_nil x)
  | cons x xs ih =>
    obtain ⟨h1, h2⟩ := ih (pickEarlier e x)
    refine ⟨le_trans h1 (pickEarlier_le_left e x), ?_⟩
    intro y hy
    rcases List.mem_cons.mp hy with rfl | hy2
    · exact le_trans h1 (pickEarlier_le_right e y)
    · exact h2 y hy2

lemma minScan_first (e : EnrichedMarket) (l : List EnrichedMarket) :
    ∃ l₁ l₂, e :: l = l₁ ++ minScan e l :: l₂ ∧
      ∀ x ∈ l₁, timeVal (minScan e l) < timeVal x := by
  induction l generalizing e with
  | nil =>
    refine ⟨[], [], rfl, ?_⟩
    intro x hx
    exact absurd hx (List.not_mem_nil x)
  | cons x xs ih =>
    by_cases hc : timeVal x < timeVal e
    · have hpe : pickEarlier e x = x := by unfold pickEarlier; rw [if_pos hc]
      rw [minScan_cons e x xs, hpe]
      obtain ⟨l₁, l₂, hsplit, hlt⟩ := ih x
      refine ⟨e :: l₁, l₂, ?_, ?_⟩
      · rw [List.cons_append, ← hsplit]
      · intro z hz
        rcases List.mem_cons.mp hz with hz1 | hz2
        · subst hz1
          exact lt_of_le_of_lt (minScan_le x xs).1 hc
        · exact hlt z hz2
    · have hpe : pickEarlier e x = e := by unfold pickEarlier; rw [if_neg hc]
      rw [minScan_cons e x xs, hpe]
      obtain ⟨l₁, l₂, hsplit, hlt⟩ := ih e
      cases l₁ with
      | nil =>
        injection hsplit with hr htail
        refine ⟨[], x :: xs, ?_, ?_⟩
        · rw [List.nil_append, ← hr]
        · intro z hz
          exact absurd hz (List.not_mem_nil z)
      | cons h1 t1 =>
        rw [List.cons_append] at hsplit
        injection hsplit with he htail
        have hre : timeVal (minScan e xs) < timeVal e := by
          have h := hlt h1 (List.mem_cons_self h1 t1)
          rw [← he] at h
          exact h
        refine ⟨e :: x :: t1, l₂, ?_, ?_⟩
        · rw [List.cons_append, List.cons_append, ← htail]
        · intro z hz
          rcases List.mem_cons.mp hz with hz1 | hz2
          · subst hz1
            exact hre
          · rcases List.mem_cons.mp hz2 with hz3 | hz4
            · subst hz3
              exact lt_of_lt_of_le hre (le_of_not_lt hc)
            · exact hlt z (List.mem_cons_of_mem h1 hz4)

lemma fetch_nil (marketGroups : List MarketGroup) (h : publicMarkets marketGroups = []) :
    fetchNextClosingMarket marketGroups = Except.error "No active markets found." := by
  unfold fetchNextClosingMarket
  rw [h]
  rfl

lemma fetch_cons (marketGroups : List MarketGroup) (p : EnrichedMarket)
    (rest : List EnrichedMarket) (h : publicMarkets marketGroups = p :: rest) :
    fetchNextClosingMarket marketGroups = Except.ok (minScan p rest) := by
  unfold fetchNextClosingMarket
  rw [h]
  have hfold : (p :: rest).foldl nextClosingReduce none = some (minScan p rest) := by
    show rest.foldl nextClosingReduce (some p) = some (minScan p rest)
    exact foldl_nextClosingReduce_some rest p
  rw [hfold]

/-- C1: for every GraphQL response, `fetchNextClosingMarket` returns, among
exactly the markets whose public flag is true, the one with the minimum end
timestamp, ties broken by encounter order (the first market with the minimal
timestamp wins); markets with a public flag other than `true` are never
returned. -/
theorem fetchNextClosingMarket_selects_min (marketGroups : List MarketGroup) :
    (publicMarkets marketGroups ≠ [] →
      ∃ m, fetchNextClosingMarket marketGroups = Except.ok m) ∧
    ∀ m, fetchNextClosingMarket marketGroups = Except.ok m →
      m.public = some true ∧ m ∈ publicMarkets marketGroups ∧
      (∀ x ∈ publicMarkets marketGroups, timeVal m ≤ timeVal x) ∧
      ∃ l₁ l₂, publicMarkets marketGroups = l₁ ++ m :: l₂ ∧
        ∀ x ∈ l₁, timeVal m < timeVal x := by
  constructor
  · intro hne
    cases hp : publicMarkets marketGroups with
    | nil => exact absurd hp hne
    | cons p rest => exact ⟨minScan p rest, fetch_cons _ p rest hp⟩
  · intro m hm
    cases hp : publicMarkets marketGroups with
    | nil =>
      rw [fetch_nil _ hp] at hm
      exact Except.noConfusion hm
    | cons p rest =>
      rw [fetch_cons _ p rest hp] at hm
      injection hm with hm'
      subst hm'
      have hmem : minScan p rest ∈ p :: rest := by
        rcases minScan_eq_or_mem p rest with h | h
        · rw [h]; exact List.mem_cons_self p rest
        · exact List.mem_cons_of_mem p h
      have hmemPub : minScan p rest ∈ publicMarkets marketGroups := by
        rw [hp]; exact hmem
      have hpub : (minScan p rest).public = some true := by
        have h := List.of_mem_filter (p := isPublic) hmemPub
        simpa [isPublic] using h
      refine ⟨hpub, hmem, ?_, ?_⟩
      · intro x hx
        rcases List.mem_cons.mp hx with hx1 | hx2
        · rw [hx1]
          exact (minScan_le p rest).1
        · exact (minScan_le p rest).2 x hx2
      · exact minScan_first p rest

/-- C1 witness: on the spec's example (t=100 private, t=200 public, t=150
public) the finder picks the t=150 market, which satisfies every property of
the claim theorem. -/
theorem fetchNextClosingMarket_selects_min_witness :
    fetchNextClosingMarket mixedVisibilityGroups = Except.ok enrichedPublic150 ∧
    (enrichedPublic150.public = some true ∧
      enrichedPublic150 ∈ publicMarkets mixedVisibilityGroups ∧
      (∀ x ∈ publicMarkets mixedVisibilityGroups,
        timeVal enrichedPublic150 ≤ timeVal x) ∧
      ∃ l₁ l₂, publicMarkets mixedVisibilityGroups = l₁ ++ enrichedPublic150 :: l₂ ∧
        ∀ x ∈ l₁, timeVal enrichedPublic150 < timeVal x) :=
  ⟨rfl, (fetchNextClosingMarket_selects_min mixedVisibilityGroups).2 enrichedPublic150 rfl⟩

/-- C2: the finder fails with the `No active markets found.` error exactly
when the flattened market set contains no public market (in particular for
an empty market set and for an all-private market set). -/
theorem fetchNextClosingMarket_error_iff_no_public (marketGroups : List MarketGroup) :
    fetchNextClosingMarket marketGroups = Except.error "No active markets found." ↔
      publicMarkets marketGroups = [] := by
  constructor
  · intro h
    cases hp : publicMarkets marketGroups with
    | nil => rfl
    | cons p rest =>
      rw [fetch_cons _ p rest hp] at h
      exact Except.noConfusion h
  · intro h
    exact fetch_nil _ h

/-- C2 witness: the all-private response and the empty response both fail
with the `No active markets found.` error. -/
theorem fetchNextClosingMarket_error_iff_no_public_witness :
    publicMarkets allPrivateGroups = [] ∧
    fetchNextClosingMarket allPrivateGroups = Except.error "No active markets found." ∧
    fetchNextClosingMarket [] = Except.error "No active markets found." :=
  ⟨rfl, (fetchNextClosingMarket_error_iff_no_public allPrivateGroups).mpr rfl,
    (fetchNextClosingMarket_error_iff_no_public []).mpr rfl⟩

/-- C10: a public market without an end timestamp compares as infinity, so
it is returned only when every public market lacks a timestamp, and then the
first encountered one wins. -/
theorem fetchNextClosingMarket_missing_timestamp (marketGroups : List MarketGroup)
    (m : EnrichedMarket) (hm : fetchNextClosingMarket marketGroups = Except.ok m)
    (ht : m.endTimestamp = none) :
    (∀ x ∈ publicMarkets marketGroups, x.endTimestamp = none) ∧
    (publicMarkets marketGroups).head? = some m := by
  have htop : timeVal m = ⊤ := by unfold timeVal; rw [ht]
  cases hp : publicMarkets marketGroups with
  | nil =>
    rw [fetch_nil _ hp] at hm
    exact Except.noConfusion hm
  | cons p rest =>
    rw [fetch_cons _ p rest hp] at hm
    injection hm with hm'
    constructor
    · intro x hx
      have hle : timeVal m ≤ timeVal x := by
        rcases List.mem_cons.mp hx with hx1 | hx2
        · rw [hx1, ← hm']; exact (minScan_le p rest).1
        · rw [← hm']; exact (minScan_le p rest).2 x hx2
      rw [htop] at hle
      have hxtop : timeVal x = ⊤ := top_le_iff.mp hle
      cases hxe : x.endTimestamp with
      | none => rfl
      | some t =>
        unfold timeVal at hxtop
        rw [hxe] at hxtop
        exact absurd hxtop (WithTop.coe_ne_top)
    · obtain ⟨l₁, l₂, hsplit, hlt⟩ := minScan_first p rest
      rw [hm'] at hsplit hlt
      cases l₁ with
      | nil =>
        injection hsplit with hr _
        show some p = some m
        rw [hr]
      | cons h1 t1 =>
        have hcontra := hlt h1 (List.mem_cons_self h1 t1)
        rw [htop] at hcontra
        exact absurd hcontra (not_top_lt)

/-- C10 witness: with two public, timestampless markets the first one is
returned and every public market indeed lacks a timestamp. -/
theorem fetchNextClosingMarket_missing_timestamp_witness :
    (∀ x ∈ publicMarkets timestamplessGroups, x.endTimestamp = none) ∧
    (publicMarkets timestamplessGroups).head? = some enrichedTimestampless7 :=
  fetchNextClosingMarket_missing_timestamp timestamplessGroups
    enrichedTimestampless7 rfl rfl

/-! Prediction parsing. -/

/-- C3: with a key configured, `getPrediction` lower-cases and trims the
model response and answers the full unit when it contains `yes`, zero when
it contains `no` but not `yes`, and the parse-failure error otherwise. -/
theorem getPrediction_parse_cases (k content : String) :
    ("yes".data <:+: (jsToLowerCase (jsTrim content)).data →
      getPrediction (some k) (some content) = Except.ok (10 ^ 18)) ∧
    (¬ "yes".data <:+: (jsToLowerCase (jsTrim content)).data →
      "no".data <:+: (jsToLowerCase (jsTrim content)).data →
      getPrediction (some k) (some content) = Except.ok 0) ∧
    (¬ "yes".data <:+: (jsToLowerCase (jsTrim content)).data →
      ¬ "no".data <:+: (jsToLowerCase (jsTrim content)).data →
      getPrediction (some k) (some content) =
        Except.error "Couldn\x27t parse a prediction") := by
  refine ⟨?_, ?_, ?_⟩
  · intro h1
    simp [getPrediction, includesSub, h1, parseEtherOne]
  · intro h1 h2
    simp [getPrediction, includesSub, h1, h2]
  · intro h1 h2
    simp [getPrediction, includesSub, h1, h2]

/-- C3 witness: the spec's three sample responses parse to the full unit,
zero, and the parse-failure error respectively. -/
theorem getPrediction_parse_cases_witness :
    getPrediction (some "k") (some "Yes, things look good.") = Except.ok (10 ^ 18) ∧
    getPrediction (some "k") (some "No.") = Except.ok 0 ∧
    getPrediction (some "k") (some "Maybe") =
      Except.error "Couldn\x27t parse a prediction" :=
  ⟨(getPrediction_parse_cases "k" "Yes, things look good.").1 (by decide),
   (getPrediction_parse_cases "k" "No.").2.1 (by decide) (by decide),
   (getPrediction_parse_cases "k" "Maybe").2.2 (by decide) (by decide)⟩

/-- C4: a model response containing both `yes` and `no` (case-insensitively)
is classified as yes, because the `yes` check runs first. -/
theorem getPrediction_yes_precedes_no (k content : String)
    (hyes : "yes".data <:+: (jsToLowerCase (jsTrim content)).data)
    (_hno : "no".data <:+: (jsToLowerCase (jsTrim content)).data) :
    getPrediction (some k) (some content) = Except.ok (10 ^ 18) := by
  simp [getPrediction, includesSub, hyes, parseEtherOne]

/-- C4 witness: the spec's both-words example contains both substrings and
is classified as yes. -/
theorem getPrediction_yes_precedes_no_witness :
    ("yes".data <:+:
      (jsToLowerCase (jsTrim "No, definitely not — yes it could still happen")).data) ∧
    ("no".data <:+:
      (jsToLowerCase (jsTrim "No, definitely not — yes it could still happen")).data) ∧
    getPrediction (some "k") (some "No, definitely not — yes it could still happen") =
      Except.ok (10 ^ 18) :=
  ⟨by decide, by decide,
   getPrediction_yes_precedes_no "k" "No, definitely not — yes it could still happen"
     (by decide) (by decide)⟩

/-- C5: without an `OPENAI_API_KEY` the prediction is the full unit whatever
the language-model endpoint would have answered: the result is independent
of the response, so the call is never consulted. -/
theorem getPrediction_no_key_defaults_yes (llmContent : Option String) :
    getPrediction none llmContent = Except.ok (10 ^ 18) := rfl

/-- C9: every value `getPrediction` returns (as opposed to errors it raises)
is exactly 0 or exactly the full unit. -/
theorem getPrediction_returns_boolean_value (openaiApiKey llmContent : Option String)
    (v : Nat) (h : getPrediction openaiApiKey llmContent = Except.ok v) :
    v = 0 ∨ v = 10 ^ 18 := by
  cases openaiApiKey with
  | none =>
    injection h with h'
    right
    rw [← h']
    rfl
  | some k =>
    cases llmContent with
    | none => exact Except.noConfusion h
    | some content =>
      have e1 : getPrediction (some k) (some content) =
          (if includesSub (jsToLowerCase (jsTrim content)) "yes" then
            Except.ok parseEtherOne
          else if includesSub (jsToLowerCase (jsTrim content)) "no" then
            Except.ok 0
          else Except.error "Couldn\x27t parse a prediction") := rfl
      rw [e1] at h
      split at h
      · injection h with h'
        right
        rw [← h']
        rfl
      · split at h
        · injection h with h'
          left
          rw [← h']
        · exact Except.noConfusion h

/-- C9 witness: the keyless default run returns the full unit, which the
invariant classifies as one of the two admissible values. -/
theorem getPrediction_returns_boolean_value_witness :
    getPrediction none none = Except.ok (10 ^ 18) ∧
    ((10 ^ 18 : Nat) = 0 ∨ (10 ^ 18 : Nat) = 10 ^ 18) :=
  ⟨rfl, getPrediction_returns_boolean_value none none (10 ^ 18) rfl⟩

/-! Quoter price string and maxSize parsing. -/

/-- C6 counterexample: at the full-unit prediction the expected-price string
is `1`, not `1.0`: viem `formatEther` strips an all-zero fraction entirely
(the source comment's `10n**18n -> "1.0"` describes ethers.js behaviour,
not that of the imported viem helper). -/
theorem expectedPriceDecimalString_not_one_point_zero :
    expectedPriceDecimalString (10 ^ 18) = "1" ∧
    expectedPriceDecimalString (10 ^ 18) ≠ "1.0" := by
  constructor
  · decide
  · decide

/-- C6 (amended): the expected-price string is the near-zero sentinel
`0.0000009` when the prediction is 0, and exactly `1` when the prediction is
the full unit. -/
theorem expectedPriceDecimalString_values :
    expectedPriceDecimalString 0 = "0.0000009" ∧
    expectedPriceDecimalString (10 ^ 18) = "1" := by
  constructor
  · decide
  · decide

lemma isDigit_not_jsWhitespace (c : Char) (h : c.isDigit = true) :
    jsWhitespace c = false := by
  cases hws : jsWhitespace c with
  | false => rfl
  | true =>
    exfalso
    unfold jsWhitespace at hws
    simp only [Bool.or_eq_true, beq_iff_eq] at hws
    rcases hws with ((hc | hc) | hc) | hc <;> (subst hc; exact absurd h (by decide))

lemma dropWhile_ws_of_digits (l : List Char) (h : ∀ c ∈ l, c.isDigit = true) :
    l.dropWhile jsWhitespace = l := by
  cases l with
  | nil => rfl
  | cons c t =>
    simp [List.dropWhile_cons, isDigit_not_jsWhitespace c (h c (List.mem_cons_self c t))]

lemma jsTrim_of_digits (s : String) (h : ∀ c ∈ s.data, c.isDigit = true) :
    jsTrim s = s := by
  unfold jsTrim
  rw [dropWhile_ws_of_digits s.data h,
    dropWhile_ws_of_digits s.data.reverse (fun c hc => h c (List.mem_reverse.mp hc)),
    List.reverse_reverse]

/-- C7: on an ok quoter response whose `maxSize` field is a digit string,
`getQuote` returns its decimal value as the position size. -/
theorem getQuote_parses_maxSize (marketAddress : String) (marketId prediction : Nat)
    (response : QuoterResponse) (hok : response.ok = true)
    (hdigits : ∀ c ∈ response.maxSize.data, c.isDigit = true) :
    getQuote marketAddress marketId prediction response =
      Except.ok (decimalValue response.maxSize.data) := by
  have hbig : jsBigIntOfString response.maxSize =
      some (decimalValue response.maxSize.data) := by
    show (if (jsTrim response.maxSize).data.all Char.isDigit then
        some (decimalValue (jsTrim response.maxSize).data) else none) = _
    rw [jsTrim_of_digits response.maxSize hdigits]
    rw [if_pos (List.all_eq_true.mpr hdigits)]
  have e1 : getQuote marketAddress marketId prediction response =
      (if !response.ok then
        Except.error ("Quoter API request failed with status " ++
          toString response.status ++ ": " ++ response.body)
      else match jsBigIntOfString response.maxSize with
        | some n => Except.ok n
        | none => Except.error "Cannot convert maxSize to a BigInt") := rfl
  rw [e1, hok, hbig]
  simp

/-- C7 witness: the spec's sample body with maxSize 500000000000000000
yields exactly that position size. -/
theorem getQuote_parses_maxSize_witness :
    getQuote "0xMG" 3 0 (QuoterResponse.mk true 200 "" "500000000000000000") =
      Except.ok 500000000000000000 := by
  rw [getQuote_parses_maxSize "0xMG" 3 0
    (QuoterResponse.mk true 200 "" "500000000000000000") rfl (by decide)]
  rfl

/-! The trading tail of the program. -/

/-- C8: without a signing credential the trade branch of `main` prints the
computed trade size and performs no on-chain action, and a direct `trade`
call fails fast with the missing-key error, its effect trace empty. -/
theorem no_key_means_dry_run (marketAddress : String) (marketId positionSize now : Nat) :
    (∀ acts, mainTradeBranch none marketAddress marketId positionSize now =
        Except.ok acts →
      Action.consoleLog ("Trade Size: " ++ formatEther positionSize) ∈ acts ∧
      ∀ d, Action.onChainTx d ∉ acts) ∧
    trade none marketAddress marketId positionSize now =
      Except.error "Ethereum private key is not set in environment variables." := by
  constructor
  · intro acts hacts
    have e1 : mainTradeBranch none marketAddress marketId positionSize now =
        Except.ok
          [Action.consoleLog ("Trade Size: " ++ formatEther positionSize),
           Action.consoleLog
             "Add an Ethereum private key to your .env file to submit trades."] := rfl
    rw [e1] at hacts
    injection hacts with hacts'
    subst hacts'
    constructor
    · exact List.mem_cons_self _ _
    · intro d hd
      rcases List.mem_cons.mp hd with h1 | h1
      · exact Action.noConfusion h1
      · rcases List.mem_cons.mp h1 with h2 | h2
        · exact Action.noConfusion h2
        · exact absurd h2 (List.not_mem_nil _)
  · rfl

/-- C8 witness: at a computed size of half a unit the dry run prints
`Trade Size: 0.5` and its trace holds no on-chain action, while the direct
`trade` call errors. -/
theorem no_key_means_dry_run_witness :
    (Action.consoleLog ("Trade Size: " ++ formatEther 500000000000000000) ∈
      [Action.consoleLog "Trade Size: 0.5",
       Action.consoleLog "Add an Ethereum private key to your .env file to submit trades."] ∧
      ∀ d, Action.onChainTx d ∉
        [Action.consoleLog "Trade Size: 0.5",
         Action.consoleLog
           "Add an Ethereum private key to your .env file to submit trades."]) ∧
    trade none "0xMG" 3 500000000000000000 1700000000 =
      Except.error "Ethereum private key is not set in environment variables." :=
  ⟨(no_key_means_dry_run "0xMG" 3 500000000000000000 1700000000).1 _ rfl,
   (no_key_means_dry_run "0xMG" 3 500000000000000000 1700000000).2⟩

end SapienceBot
